import Mathlib

/-!
# go-fuse request pipeline, shallow embedding

Verification development for the FUSE request pipeline of `fuse/request.go`
(the `request` struct and its `clear`, `setInput`, `parse`,
`serializeHeader` and `flatDataSize` methods).  Byte buffers are `List Nat`
with every read reduced modulo 256, machine integers are `Nat` with
explicit `% 2^32` / `% 2^64` where the Go code converts, and Go slice
operations that can panic are mapped to `Option` results (`none` = panic).

Parts of the repository that the pipeline consults but that are not under
`src/` — the opcode registry of `opcodes.go`, the header and record layouts
of `types.go`, the errno values, and the dispatcher glue of `server.go` —
are modelled from the specification; each such definition carries a
`Modelled from the spec:` note.
-/

namespace GoFuse

/-- One byte of a buffer: out-of-range reads give 0, values reduce mod 256. -/
def byteAt (bs : List Nat) (i : Nat) : Nat := bs.getD i 0 % 256

/-- Little-endian 32-bit read at `off`, as the unsafe-pointer field reads do. -/
def readU32 (bs : List Nat) (off : Nat) : Nat :=
  byteAt bs off + 2^8 * byteAt bs (off+1) + 2^16 * byteAt bs (off+2) +
    2^24 * byteAt bs (off+3)

/-- Little-endian 64-bit read at `off`. -/
def readU64 (bs : List Nat) (off : Nat) : Nat :=
  byteAt bs off + 2^8 * byteAt bs (off+1) + 2^16 * byteAt bs (off+2) +
    2^24 * byteAt bs (off+3) + 2^32 * byteAt bs (off+4) + 2^40 * byteAt bs (off+5) +
    2^48 * byteAt bs (off+6) + 2^56 * byteAt bs (off+7)

/-- Little-endian 32-bit byte image of `n`. -/
def u32le (n : Nat) : List Nat :=
  [n % 256, n / 2^8 % 256, n / 2^16 % 256, n / 2^24 % 256]

/-- Little-endian 64-bit byte image of `n`. -/
def u64le (n : Nat) : List Nat :=
  [n % 256, n / 2^8 % 256, n / 2^16 % 256, n / 2^24 % 256,
   n / 2^32 % 256, n / 2^40 % 256, n / 2^48 % 256, n / 2^56 % 256]

/-- Value of an unsigned 32-bit word read as a signed 32-bit integer. -/
def decodeI32 (n : Nat) : Int :=
  if n % 2^32 < 2^31 then (n % 2^32 : Nat) else (n % 2^32 : Nat) - 2^32

/-- Statuses are kernel errno values carried in an `int32`. -/
abbrev Status := Nat

/-- Modelled from the spec: success status. -/
def OK : Status := 0

/-- Modelled from the spec: the "I/O error" errno (Linux `EIO`). -/
def EIO : Status := 5

/-- Modelled from the spec: the "function not implemented" errno (Linux `ENOSYS`). -/
def ENOSYS : Status := 38

/-- Modelled from the spec (wire format §6): `InHeader` is
`length u32 | opcode u32 | unique u64 | nodeId u64 | uid u32 | gid u32 |
pid u32 | pad u32`, 40 bytes; `types.go` is not under `src/`. -/
def sizeOfInHeader : Nat := 40

/-- Modelled from the spec (wire format §6): `OutHeader` is
`length u32 | status i32 | unique u64`, 16 bytes. -/
def sizeOfOutHeader : Nat := 16

/-- Modelled from the spec: size of the inline per-request output array
`outBuf [outputHeaderSize]byte`, sized to hold the out-header plus any
opcode's structured output record; the constant lives outside `src/`. -/
def outputHeaderSize : Nat := 200

/-- Modelled from the spec: `unsafe.Sizeof(RenameIn{})` — the extended
rename record embeds the `InHeader` (40) plus `newdir u64, flags u32,
padding u32`. -/
def sizeOfRenameIn : Nat := 56

/-- Modelled from the spec: FUSE protocol opcode tags consulted by the
pipeline; `opcodes.go` is not under `src/`. -/
def _OP_RENAME : Nat := 12

/-- Modelled from the spec: SETXATTR opcode tag. -/
def _OP_SETXATTR : Nat := 21

/-- Modelled from the spec: GETXATTR opcode tag. -/
def _OP_GETXATTR : Nat := 22

/-- Modelled from the spec: LISTXATTR opcode tag. -/
def _OP_LISTXATTR : Nat := 23

/-- Modelled from the spec: INIT opcode tag. -/
def _OP_INIT : Nat := 26

/-- Modelled from the spec: a registry entry (`operationHandler` in
`opcodes.go`, not under `src/`): fixed input size (the input record types
embed the `InHeader`, so a nonzero `InputSize` includes the 40 header
bytes), output-record size (after the out-header), filename-argument
count, and whether flat output data is a filename. -/
structure operationHandler where
  InputSize : Nat
  OutputSize : Nat
  FileNames : Nat
  FileNameOut : Bool
deriving DecidableEq

/-- The opcode registry `getHandler` is a lookup from opcode to entry. -/
abbrev Registry := Nat → Option operationHandler

/-- Modelled from the spec: the negotiated kernel settings (`InitIn`)
consulted by the parser; only rename-swap support is used. -/
structure KernelSettings where
  supportsRenameSwap : Bool
deriving DecidableEq

/-- A Go byte slice: the visible bytes plus the hidden bytes between
`len` and `cap` that `input[:cap(input)]` exposes. -/
structure GoSlice where
  bytes : List Nat
  extra : List Nat
deriving DecidableEq

/-- The per-request state container (`type request struct`).  Slices are
byte lists with `nil` as `[]`; `outputBuf` is the length of the slice of
the backing `outBuf` array it denotes (`none` = nil slice); `fdData` is
abstracted to its `Size()`; `readResult` and `cancel` are opaque tokens;
`startTime` is a timestamp with 0 as the zero time. -/
structure request where
  inflightIndex : Nat
  cancel : Nat
  interrupted : Bool
  inputBuf : List Nat
  outputBuf : Option Nat
  arg : List Nat
  filenames : List (List Nat)
  status : Status
  flatData : List Nat
  fdData : Option Nat
  readResult : Option Nat
  startTime : Nat
  bufferPoolInputBuf : List Nat
  bufferPoolOutputBuf : List Nat
  outBuf : List Nat
  smallInputBuf : List Nat
deriving DecidableEq

/-- A freshly allocated request: zero values, inline arrays zeroed. -/
def freshRequest : request :=
  { inflightIndex := 0, cancel := 0, interrupted := false, inputBuf := [],
    outputBuf := none, arg := [], filenames := [], status := OK,
    flatData := [], fdData := none, readResult := none, startTime := 0,
    bufferPoolInputBuf := [], bufferPoolOutputBuf := [],
    outBuf := List.replicate outputHeaderSize 0,
    smallInputBuf := List.replicate 128 0 }

/-- `r.inHeader().Opcode`: u32 at offset 4 of `inputBuf`. -/
def request.Opcode (r : request) : Nat := readU32 r.inputBuf 4

/-- `r.inHeader().Unique`: u64 at offset 8 of `inputBuf`. -/
def request.Unique (r : request) : Nat := readU64 r.inputBuf 8

/-- `(*GetXAttrIn)(r.inData()).Size`: the record embeds the `InHeader`,
so `Size` is the u32 at offset 40 of `inputBuf`. -/
def request.xattrInSize (r : request) : Nat := readU32 r.inputBuf sizeOfInHeader

/-- `func (r *request) clear()`: lines 74–84 of `request.go`. -/
def request.clear (r : request) : request :=
  { r with inputBuf := [], outputBuf := none, arg := [], filenames := [],
           status := OK, flatData := [], fdData := none, startTime := 0,
           readResult := none }

/-- `func (r *request) setInput(input []byte) bool`: lines 168–178.
Inputs strictly below the 128-byte inline array length are copied into
`smallInputBuf` and not owned; otherwise the slice is taken over and its
full capacity recorded as the pool-owned input buffer. -/
def request.setInput (r : request) (input : GoSlice) : request × Bool :=
  if input.bytes.length < r.smallInputBuf.length then
    let sb := input.bytes ++ r.smallInputBuf.drop input.bytes.length
    ({ r with smallInputBuf := sb, inputBuf := sb.take input.bytes.length }, false)
  else
    ({ r with inputBuf := input.bytes,
              bufferPoolInputBuf := input.bytes ++ input.extra }, true)

/-- `func (r *request) flatDataSize() int`: lines 275–280. -/
def request.flatDataSize (r : request) : Nat :=
  match r.fdData with
  | some n => n
  | none => r.flatData.length

/-- `bytes.SplitN(bs, []byte{0}, n)`: split on single NUL bytes into at
most `n` pieces, the last piece unsplit; `n = 0` yields no pieces. -/
def bytesSplitN : Nat → List Nat → List (List Nat)
  | 0, _ => []
  | 1, bs => [bs]
  | n+2, bs =>
    if (0 : Nat) ∈ bs then
      bs.takeWhile (fun b => b != 0) ::
        bytesSplitN (n+1) (((bs.dropWhile (fun b => b != 0))).drop 1)
    else [bs]

/-- The expected fixed input size of lines 192–199: the registry entry's
`InputSize`, replaced by `sizeof(RenameIn)` when rename-swap was
negotiated, and for INIT replaced by the full received length whenever it
exceeds the (not yet assigned) `arg` length. -/
def computeInSz (ks : KernelSettings) (op : Nat) (h : operationHandler)
    (argLen inputLen : Nat) : Nat :=
  let s := if op = _OP_RENAME ∧ ks.supportsRenameSwap then sizeOfRenameIn
           else h.InputSize
  if op = _OP_INIT ∧ argLen < s then inputLen else s

/-- Filename extraction, lines 212–232.  Returns `none` on a Go panic
(`arg[:len(arg)-1]` with empty `arg`); otherwise the new `filenames`
value together with the filename-count-mismatch flag that line 229 turns
into `EIO`. -/
def parseNames (op count : Nat) (arg : List Nat)
    (prior : List (List Nat)) : Option (List (List Nat) × Bool) :=
  if count = 0 then some (prior, false)
  else if count = 1 ∧ op = _OP_SETXATTR then
    some ([(bytesSplitN 2 arg).headD []], false)
  else if count = 1 then
    if arg.length = 0 then none
    else some ([arg.take (arg.length - 1)], false)
  else
    if arg.length = 0 then none
    else
      let names := bytesSplitN count (arg.take (arg.length - 1))
      some (names, names.length ≠ count)

/-- `func (r *request) parse(kernelSettings *InitIn)`: lines 184–236.
`none` models a Go panic: dereferencing an empty `inputBuf`, slicing
`inputBuf` beyond its length, the filename panics of `parseNames`, or
slicing `outBuf` beyond `outputHeaderSize`.  Log statements are side
effects outside the state and are dropped. -/
def parse (reg : Registry) (ks : KernelSettings) (r : request) : Option request :=
  if r.inputBuf.length = 0 then none else
  match reg r.Opcode with
  | none => some { r with status := ENOSYS }
  | some h =>
    let inSz := computeInSz ks r.Opcode h r.arg.length r.inputBuf.length
    if r.inputBuf.length < inSz then some { r with status := EIO }
    else
      let argOff := if 0 < h.InputSize then inSz else sizeOfInHeader
      if r.inputBuf.length < argOff then none
      else
        let arg := r.inputBuf.drop argOff
        match parseNames r.Opcode h.FileNames arg r.filenames with
        | none => none
        | some (names, mismatch) =>
          if outputHeaderSize < h.OutputSize + sizeOfOutHeader then none
          else
            some { r with
              arg := arg,
              filenames := names,
              status := if mismatch then EIO else r.status,
              outBuf := List.replicate (h.OutputSize + sizeOfOutHeader) 0 ++
                r.outBuf.drop (h.OutputSize + sizeOfOutHeader),
              outputBuf := some (h.OutputSize + sizeOfOutHeader) }

/-- The structured data length of lines 245–264: the registry entry's
output-record size (0 when there is no entry), zeroed for positive
(failure) status, and zeroed for GETXATTR/LISTXATTR when the parsed
input's `Size` field is nonzero. -/
def dataLengthOf (reg : Registry) (r : request) : Nat :=
  let dl := match reg r.Opcode with
            | some h => h.OutputSize
            | none => 0
  let dl := if OK < r.status then 0 else dl
  if (r.Opcode = _OP_GETXATTR ∨ r.Opcode = _OP_LISTXATTR) ∧
      r.xattrInSize ≠ 0 then 0 else dl

/-- `func (r *request) serializeHeader(flatDataSize int)`: lines 244–273.
The three out-header field writes land in bytes [0,4), [4,8), [8,16) of
`outputBuf`, i.e. of the backing `outBuf`: `length` is
`uint32(sizeOfOutHeader + dataLength + flatDataSize)`, `status` is the
two's complement of the request status (`int32(-r.status)`), `unique`
echoes the in-header's; then `outputBuf` is truncated to
`dataLength + sizeOfOutHeader`.  `none` models a panic: reading the
in-header of an empty `inputBuf`, dereferencing a nil or empty
`outputBuf`, or re-slicing `outputBuf` beyond the `outBuf` capacity. -/
def serializeHeader (reg : Registry) (r : request) (flatDataSize : Nat) :
    Option request :=
  if r.inputBuf.length = 0 then none else
  match r.outputBuf with
  | none => none
  | some k =>
    if k = 0 then none else
    let dataLength := dataLengthOf reg r
    if outputHeaderSize < dataLength + sizeOfOutHeader then none else
    some { r with
      outBuf := u32le (sizeOfOutHeader + dataLength + flatDataSize) ++
        u32le (2^32 - r.status % 2^32) ++ u64le r.Unique ++
        r.outBuf.drop sizeOfOutHeader,
      outputBuf := some (dataLength + sizeOfOutHeader) }

/-- The `length` field of the reply's out-header. -/
def request.replyLength (r : request) : Nat := readU32 r.outBuf 0

/-- The raw (unsigned) `status` field of the reply's out-header. -/
def request.replyStatusRaw (r : request) : Nat := readU32 r.outBuf 4

/-- The `unique` field of the reply's out-header. -/
def request.replyUnique (r : request) : Nat := readU64 r.outBuf 8

/-- Modelled from the spec: the dispatcher glue of `server.go` (not under
`src/`).  A recycled request is cleared, the inbound frame stored with
`setInput`, and the out-header scratch of the inline output array is made
available so that even a request whose parse fails early is answered with
a header-only reply (spec §4.1, §7: "the kernel must always see an
answer"); frames shorter than the in-header fail with I/O-error status
before parsing (spec §4.3 step 1, §7).  The handler here is the identity
handler: it echoes the parsed status and attaches no payload, so
serialization follows parsing directly. -/
def handleFrame (reg : Registry) (ks : KernelSettings) (r0 : request)
    (input : GoSlice) : Option request :=
  let r1 := (r0.clear.setInput input).1
  let r2 := { r1 with outputBuf := some sizeOfOutHeader }
  if r2.inputBuf.length < sizeOfInHeader then
    serializeHeader reg { r2 with status := EIO } ({ r2 with status := EIO }).flatDataSize
  else
    match parse reg ks r2 with
    | none => none
    | some r3 => serializeHeader reg r3 r3.flatDataSize

/-- A coherent reply frame: a live `outputBuf` of at least the out-header,
within the backing array, whose `length` field covers `outputBuf` plus the
flat payload (spec §4.6). -/
def validReply (r : request) : Prop :=
  ∃ k, r.outputBuf = some k ∧ sizeOfOutHeader ≤ k ∧ k ≤ r.outBuf.length ∧
    r.replyLength = k + r.flatDataSize

/-- Modelled from the spec: a sample of the opcode registry (§3, §4.1;
`opcodes.go` is not under `src/`), with input sizes embedding the
40-byte in-header.  LOOKUP `(1)` names one file; GETATTR `(3)` returns an
`AttrOut`; READLINK `(5)` returns a flat filename; RENAME `(12)` names
two files; SETXATTR `(21)` names one file and carries a binary value;
GETXATTR `(22)` and LISTXATTR `(23)` return a `GetXAttrOut`;
INIT `(26)` carries an `InitIn`. -/
def sampleHandlers : Registry := fun op =>
  if op = 1 then some ⟨0, 128, 1, false⟩
  else if op = 3 then some ⟨56, 104, 0, false⟩
  else if op = 5 then some ⟨0, 0, 0, true⟩
  else if op = 12 then some ⟨48, 0, 2, false⟩
  else if op = 21 then some ⟨48, 0, 1, false⟩
  else if op = 22 then some ⟨48, 8, 1, false⟩
  else if op = 23 then some ⟨48, 8, 0, false⟩
  else if op = 26 then some ⟨104, 64, 0, false⟩
  else none

/-- Kernel settings without rename-swap, for concrete runs. -/
def ks0 : KernelSettings := ⟨false⟩

/-- A concrete inbound frame: in-header with the given opcode and unique
(nodeId/caller zeroed, length field covering the frame) followed by the
opcode-specific record and variable tail. -/
def mkFrame (op uniq : Nat) (tail : List Nat) : List Nat :=
  u32le (sizeOfInHeader + tail.length) ++ u32le op ++ u64le uniq ++
    List.replicate 24 0 ++ tail

/-- A completed GETXATTR data-mode request: input `Size = 1`, status OK,
3 bytes of flat data, output buffer as prepared by parse (16 + 8). -/
def gxDataReq : request :=
  { freshRequest with
    inputBuf := mkFrame 22 4 (u32le 1 ++ u32le 0 ++ [97, 0]),
    outputBuf := some 24, flatData := [9, 9, 9] }

/-- A failed GETXATTR size-mode request: input `Size = 0`, status `EIO`. -/
def gxErrReq : request :=
  { freshRequest with
    inputBuf := mkFrame 22 4 (u32le 0 ++ u32le 0 ++ [97, 0]),
    outputBuf := some 24, status := EIO }

/-- A completed GETXATTR size-mode request: input `Size = 0`, status OK,
no flat data. -/
def gxSizeReq : request :=
  { freshRequest with
    inputBuf := mkFrame 22 4 (u32le 0 ++ u32le 0 ++ [97, 0]),
    outputBuf := some 24 }

/-- A completed GETATTR request, status OK, output buffer 16 + 104. -/
def gaDoneReq : request :=
  { freshRequest with
    inputBuf := mkFrame 3 5 (List.replicate 16 0),
    outputBuf := some 120 }

/-- A 56-byte GETATTR frame (header + 16-byte record), unique 5. -/
def getattrFrame : List Nat := mkFrame 3 5 (List.replicate 16 0)

/-- A 40-byte LOOKUP frame: recognized one-filename opcode with an empty
filename argument region. -/
def lookupFrame40 : List Nat := mkFrame 1 7 []

/-- A LOOKUP frame carrying the NUL-terminated name `"ab"`. -/
def lookupFrameAB : List Nat := mkFrame 1 7 [97, 98, 0]

/-- A 112-byte INIT frame: 8 bytes beyond the declared 104-byte `InitIn`. -/
def initFrame112 : List Nat := mkFrame 26 3 (List.replicate 72 0)

/-- An 80-byte INIT frame: an `InitIn` 24 bytes short of the declared size,
as an older-minor kernel would send. -/
def initFrame80 : List Nat := mkFrame 26 3 (List.replicate 40 0)

/-- A SETXATTR frame: 8-byte record, then `"user.foo" NUL` and a 4-byte
value. -/
def sxValueFrame : List Nat :=
  mkFrame 21 11 (List.replicate 8 0 ++
    [117, 115, 101, 114, 46, 102, 111, 111, 0, 1, 2, 3, 4])

/-- A frame with opcode `0xFFFF`, which no registry entry covers. -/
def unknownFrame : List Nat := mkFrame 65535 9 []

/-- A recycled request about to parse the 56-byte GETATTR frame. -/
def gaParseReq : request := { freshRequest with inputBuf := getattrFrame }

/-- A recycled request about to parse the 112-byte INIT frame. -/
def initParseReq112 : request := { freshRequest with inputBuf := initFrame112 }

/-- A recycled request about to parse the 80-byte INIT frame. -/
def initParseReq80 : request := { freshRequest with inputBuf := initFrame80 }

/-- A recycled request about to parse the SETXATTR name/value frame. -/
def sxParseReq : request := { freshRequest with inputBuf := sxValueFrame }

/-- Each byte of a buffer is below 256. -/
theorem byteAt_lt (bs : List Nat) (i : Nat) : byteAt bs i < 256 :=
  Nat.mod_lt _ (by norm_num)

/-- A 32-bit read is below `2^32`. -/
theorem readU32_lt (bs : List Nat) (off : Nat) : readU32 bs off < 2^32 := by
  unfold readU32
  have h0 := byteAt_lt bs off
  have h1 := byteAt_lt bs (off+1)
  have h2 := byteAt_lt bs (off+2)
  have h3 := byteAt_lt bs (off+3)
  omega

/-- A 64-bit read is below `2^64`. -/
theorem readU64_lt (bs : List Nat) (off : Nat) : readU64 bs off < 2^64 := by
  unfold readU64
  have h0 := byteAt_lt bs off
  have h1 := byteAt_lt bs (off+1)
  have h2 := byteAt_lt bs (off+2)
  have h3 := byteAt_lt bs (off+3)
  have h4 := byteAt_lt bs (off+4)
  have h5 := byteAt_lt bs (off+5)
  have h6 := byteAt_lt bs (off+6)
  have h7 := byteAt_lt bs (off+7)
  omega

/-- Reading back the `length` field of a packed out-header. -/
theorem readU32_pack (a : Nat) (l : List Nat) :
    readU32 (u32le a ++ l) 0 = a % 2^32 := by
  simp [readU32, u32le, byteAt]
  omega

/-- Reading back the `status` field of a packed out-header. -/
theorem readU32_pack4 (a b : Nat) (l : List Nat) :
    readU32 (u32le a ++ u32le b ++ l) 4 = b % 2^32 := by
  simp [readU32, u32le, byteAt]
  omega

/-- Reading back the `unique` field of a packed out-header. -/
theorem readU64_pack8 (a b u : Nat) (l : List Nat) :
    readU64 (u32le a ++ u32le b ++ u64le u ++ l) 8 = u % 2^64 := by
  simp [readU64, u32le, u64le, byteAt]
  omega

/-- The stored two's complement of a status reads back as its negation. -/
theorem decodeI32_twoComp (s : Nat) (hs : s < 2^31) :
    decodeI32 ((2^32 - s % 2^32) % 2^32) = -(s : Int) := by
  unfold decodeI32
  split <;> omega

/-- `setInput` stores exactly the inbound bytes in `inputBuf` and touches
no other pipeline-relevant field. -/
theorem setInput_fst_fields (r : request) (input : GoSlice) :
    ((r.setInput input).1).inputBuf = input.bytes ∧
    ((r.setInput input).1).arg = r.arg ∧
    ((r.setInput input).1).filenames = r.filenames ∧
    ((r.setInput input).1).status = r.status ∧
    ((r.setInput input).1).flatData = r.flatData ∧
    ((r.setInput input).1).fdData = r.fdData ∧
    ((r.setInput input).1).outBuf = r.outBuf ∧
    ((r.setInput input).1).outputBuf = r.outputBuf := by
  unfold request.setInput
  split
  · exact ⟨List.take_left input.bytes (r.smallInputBuf.drop input.bytes.length),
      rfl, rfl, rfl, rfl, rfl, rfl, rfl⟩
  · exact ⟨rfl, rfl, rfl, rfl, rfl, rfl, rfl, rfl⟩

/-- Closed form of a non-panicking `serializeHeader` run. -/
theorem serializeHeader_eq (reg : Registry) (r : request) (flat k : Nat)
    (hin : r.inputBuf.length ≠ 0) (hout : r.outputBuf = some k) (hk : k ≠ 0)
    (hcap : dataLengthOf reg r + sizeOfOutHeader ≤ outputHeaderSize) :
    serializeHeader reg r flat = some { r with
      outBuf := u32le (sizeOfOutHeader + dataLengthOf reg r + flat) ++
        u32le (2^32 - r.status % 2^32) ++ u64le r.Unique ++
        r.outBuf.drop sizeOfOutHeader,
      outputBuf := some (dataLengthOf reg r + sizeOfOutHeader) } := by
  unfold serializeHeader
  rw [if_neg hin, hout]
  simp only [hk, if_false]
  rw [if_neg (by omega)]

/-- Field values of a non-panicking `serializeHeader` run: the reply
header carries the (wrapped) total length, the negated status, the echoed
unique; `outputBuf` is truncated to header plus structured length; status
and flat payload are untouched; the backing array keeps its length. -/
theorem serializeHeader_fields (reg : Registry) (r : request) (flat k : Nat)
    (hin : r.inputBuf.length ≠ 0) (hout : r.outputBuf = some k) (hk : k ≠ 0)
    (hcap : dataLengthOf reg r + sizeOfOutHeader ≤ outputHeaderSize)
    (hst : r.status < 2^31) :
    ∃ r', serializeHeader reg r flat = some r' ∧
      r'.replyLength = (sizeOfOutHeader + dataLengthOf reg r + flat) % 2^32 ∧
      decodeI32 r'.replyStatusRaw = -(r.status : Int) ∧
      r'.replyUnique = r.Unique ∧
      r'.outputBuf = some (dataLengthOf reg r + sizeOfOutHeader) ∧
      r'.status = r.status ∧ r'.flatData = r.flatData ∧ r'.fdData = r.fdData ∧
      r'.outBuf.length = sizeOfOutHeader + (r.outBuf.length - sizeOfOutHeader) := by
  refine ⟨_, serializeHeader_eq reg r flat k hin hout hk hcap, ?_, ?_, ?_, rfl, rfl, rfl, rfl, ?_⟩
  · exact readU32_pack _ _
  · show decodeI32 (readU32 (u32le (sizeOfOutHeader + dataLengthOf reg r + flat) ++
        u32le (2^32 - r.status % 2^32) ++
        (u64le r.Unique ++ r.outBuf.drop sizeOfOutHeader)) 4) = -(r.status : Int)
    rw [readU32_pack4]
    exact decodeI32_twoComp r.status hst
  · show readU64 (u32le (sizeOfOutHeader + dataLengthOf reg r + flat) ++
        u32le (2^32 - r.status % 2^32) ++ u64le r.Unique ++
        r.outBuf.drop sizeOfOutHeader) 8 = r.Unique
    rw [readU64_pack8]
    exact Nat.mod_eq_of_lt (readU64_lt _ _)
  · show (u32le (sizeOfOutHeader + dataLengthOf reg r + flat) ++
        u32le (2^32 - r.status % 2^32) ++ u64le r.Unique ++
        r.outBuf.drop sizeOfOutHeader).length = _
    simp [u32le, u64le, sizeOfOutHeader]
    omega

/-- Claim C10: `clear()` resets exactly `inputBuf`, `outputBuf`, `arg`,
`filenames`, `flatData`, `fdData` and `readResult` to nil, `status` to OK
and `startTime` to the zero time, and leaves `bufferPoolInputBuf`,
`bufferPoolOutputBuf`, `cancel`, `interrupted` and `inflightIndex` (and
the inline arrays) unchanged — so recycling via `clear()` neither drops
pool buffer references nor resets the interrupted flag. -/
theorem clear_resets_exactly (r : request) :
    (r.clear.inputBuf = [] ∧ r.clear.outputBuf = none ∧ r.clear.arg = [] ∧
     r.clear.filenames = [] ∧ r.clear.status = OK ∧ r.clear.flatData = [] ∧
     r.clear.fdData = none ∧ r.clear.readResult = none ∧
     r.clear.startTime = 0) ∧
    (r.clear.bufferPoolInputBuf = r.bufferPoolInputBuf ∧
     r.clear.bufferPoolOutputBuf = r.bufferPoolOutputBuf ∧
     r.clear.cancel = r.cancel ∧ r.clear.interrupted = r.interrupted ∧
     r.clear.inflightIndex = r.inflightIndex ∧
     r.clear.outBuf = r.outBuf ∧ r.clear.smallInputBuf = r.smallInputBuf) :=
  ⟨⟨rfl, rfl, rfl, rfl, rfl, rfl, rfl, rfl, rfl⟩,
   ⟨rfl, rfl, rfl, rfl, rfl, rfl, rfl⟩⟩

/-- Claim C6 (amended): frames strictly smaller than the 128-byte inline
array are copied into it, `inputBuf` points at the copy, the pool field
is untouched and `setInput` returns false; frames of 128 bytes or more —
including one that exactly fills the array — take the ownership path:
`inputBuf` is the caller's slice, its full capacity is recorded in
`bufferPoolInputBuf`, and `setInput` returns true. -/
theorem setInput_paths (r : request) (input : GoSlice)
    (hsb : r.smallInputBuf.length = 128) :
    (input.bytes.length < 128 →
      r.setInput input =
        ({ r with
           smallInputBuf := input.bytes ++
             r.smallInputBuf.drop input.bytes.length,
           inputBuf := input.bytes }, false)) ∧
    (128 ≤ input.bytes.length →
      r.setInput input =
        ({ r with
           inputBuf := input.bytes,
           bufferPoolInputBuf := input.bytes ++ input.extra }, true)) := by
  constructor
  · intro hlt
    unfold request.setInput
    rw [if_pos (by omega)]
    simp [List.take_left]
  · intro hge
    unfold request.setInput
    rw [if_neg (by omega)]

set_option maxRecDepth 4000 in
/-- Counterexample to claim C6 as stated: a 128-byte frame fits the
128-byte inline array, yet `setInput` does not take the copy path — it
returns true and takes ownership of the caller's buffer. -/
theorem setInput_paths_cx :
    (List.replicate 128 7).length ≤ freshRequest.smallInputBuf.length ∧
    (freshRequest.setInput ⟨List.replicate 128 7, []⟩).2 = true := by
  decide

set_option maxRecDepth 4000 in
/-- Witness for C6 at concrete inputs on both sides of the threshold. -/
theorem setInput_paths_witness :
    (freshRequest.setInput ⟨[5], []⟩).2 = false ∧
    (freshRequest.setInput ⟨List.replicate 129 0, [1]⟩).2 = true := by
  constructor
  · rw [(setInput_paths freshRequest ⟨[5], []⟩ (by decide)).1 (by decide)]
  · rw [(setInput_paths freshRequest ⟨List.replicate 129 0, [1]⟩ (by decide)).2
      (by norm_num)]

/-- The structured length is zeroed on every failure status. -/
theorem dataLengthOf_err (reg : Registry) (r : request) (hgt : OK < r.status) :
    dataLengthOf reg r = 0 := by
  unfold dataLengthOf
  simp [hgt]

/-- Away from the xattr opcodes, a successful reply keeps the registry
entry's output-record size as structured length. -/
theorem dataLengthOf_plain (reg : Registry) (r : request) (hOK : r.status = OK)
    (hnx : ¬(r.Opcode = _OP_GETXATTR ∨ r.Opcode = _OP_LISTXATTR)) :
    dataLengthOf reg r = (reg r.Opcode).elim 0 (fun hh => hh.OutputSize) := by
  unfold dataLengthOf
  rw [if_neg (by exact fun hc => hnx hc.1)]
  rw [if_neg (by simp [hOK, OK])]
  cases hreg : reg r.Opcode <;> simp

/-- An xattr sizing query (`Size = 0`) with OK status keeps the declared
`GetXAttrOut` size. -/
theorem dataLengthOf_xattr_size0 (reg : Registry) (r : request)
    (h : operationHandler) (hreg : reg r.Opcode = some h)
    (hOK : r.status = OK) (h0 : r.xattrInSize = 0) :
    dataLengthOf reg r = h.OutputSize := by
  unfold dataLengthOf
  rw [if_neg (by exact fun hc => hc.2 h0)]
  rw [if_neg (by simp [hOK, OK])]
  rw [hreg]

/-- An xattr data fetch (`Size` nonzero) zeroes the structured length. -/
theorem dataLengthOf_xattr_data (reg : Registry) (r : request)
    (hop : r.Opcode = _OP_GETXATTR ∨ r.Opcode = _OP_LISTXATTR)
    (h1 : r.xattrInSize ≠ 0) :
    dataLengthOf reg r = 0 := by
  unfold dataLengthOf
  rw [if_pos ⟨hop, h1⟩]

/-- Claim C1 (amended): for every completed request,
`serializeHeader(flatDataSize)` populates the out-header so that `unique`
echoes the inbound header's unique, `status` is the negated request status
as a signed 32-bit integer, and `length` is
`outHeader_size + structured_length + flatDataSize`, with `flatDataSize`
being `fdData.Size()` when present and `len(flatData)` otherwise;
`outputBuf` is truncated to `outHeader_size + structured_length`.  The
structured length is the registry entry's output-record size (0 with no
entry), is 0 whenever status > OK — and, beyond the claim as stated, is
also 0 for a GETXATTR/LISTXATTR request whose parsed input `Size` is
nonzero (the xattr data mode), which is what refutes the original
wording. -/
theorem serializeHeader_outHeader_fields (reg : Registry) (r : request) (k : Nat)
    (hin : r.inputBuf.length ≠ 0) (hout : r.outputBuf = some k) (hk : k ≠ 0)
    (hcap : dataLengthOf reg r + sizeOfOutHeader ≤ outputHeaderSize)
    (hst : r.status < 2^31)
    (hov : sizeOfOutHeader + dataLengthOf reg r + r.flatDataSize < 2^32) :
    ∃ r', serializeHeader reg r r.flatDataSize = some r' ∧
      r'.replyUnique = r.Unique ∧
      decodeI32 r'.replyStatusRaw = -(r.status : Int) ∧
      r'.replyLength = sizeOfOutHeader + dataLengthOf reg r + r.flatDataSize ∧
      r'.outputBuf = some (dataLengthOf reg r + sizeOfOutHeader) ∧
      (OK < r.status → dataLengthOf reg r = 0) ∧
      (r.status = OK → ¬(r.Opcode = _OP_GETXATTR ∨ r.Opcode = _OP_LISTXATTR) →
        dataLengthOf reg r = (reg r.Opcode).elim 0 (fun hh => hh.OutputSize)) := by
  obtain ⟨r', he, hL, hS, hU, hOB, -, -, -, -⟩ :=
    serializeHeader_fields reg r r.flatDataSize k hin hout hk hcap hst
  refine ⟨r', he, hU, hS, ?_, hOB, fun hgt => dataLengthOf_err reg r hgt,
    fun hOK hnx => dataLengthOf_plain reg r hOK hnx⟩
  rw [hL]
  exact Nat.mod_eq_of_lt hov

set_option maxRecDepth 10000 in
/-- Counterexample to claim C1 as stated: a completed GETXATTR data-mode
request (input `Size = 1`, status OK, 3 flat bytes) has registry output
size 8, yet the reply length field is 16 + 0 + 3 = 19, not
16 + 8 + 3 = 27, and `outputBuf` is truncated to 16, not 24. -/
theorem serializeHeader_outHeader_fields_cx :
    sampleHandlers gxDataReq.Opcode = some ⟨48, 8, 1, false⟩ ∧
    gxDataReq.status = OK ∧ gxDataReq.flatDataSize = 3 ∧
    (serializeHeader sampleHandlers gxDataReq gxDataReq.flatDataSize).map
      request.replyLength = some 19 ∧
    (serializeHeader sampleHandlers gxDataReq gxDataReq.flatDataSize).map
      request.outputBuf = some (some 16) ∧
    (19 : Nat) ≠ sizeOfOutHeader + 8 + 3 := by
  decide

set_option maxRecDepth 10000 in
/-- Witness for C1 on a completed GETATTR request. -/
theorem serializeHeader_outHeader_fields_witness :
    ∃ r', serializeHeader sampleHandlers gaDoneReq gaDoneReq.flatDataSize = some r' ∧
      r'.replyUnique = gaDoneReq.Unique ∧
      decodeI32 r'.replyStatusRaw = -(gaDoneReq.status : Int) ∧
      r'.replyLength = sizeOfOutHeader + dataLengthOf sampleHandlers gaDoneReq +
        gaDoneReq.flatDataSize ∧
      r'.outputBuf = some (dataLengthOf sampleHandlers gaDoneReq + sizeOfOutHeader) ∧
      (OK < gaDoneReq.status → dataLengthOf sampleHandlers gaDoneReq = 0) ∧
      (gaDoneReq.status = OK →
        ¬(gaDoneReq.Opcode = _OP_GETXATTR ∨ gaDoneReq.Opcode = _OP_LISTXATTR) →
        dataLengthOf sampleHandlers gaDoneReq =
          (sampleHandlers gaDoneReq.Opcode).elim 0 (fun hh => hh.OutputSize)) :=
  serializeHeader_outHeader_fields sampleHandlers gaDoneReq 120 (by decide)
    (by decide) (by decide) (by decide) (by decide) (by decide)

/-- Claim C2 (amended): for every GETXATTR or LISTXATTR request *with OK
status*, serialization is dual-mode on the already-parsed input record's
`Size` field: when `Size = 0` the reply keeps the structured
`GetXAttrOut` record (structured length nonzero, `outputBuf` keeps
header + record, and with the mode's no-flat-data obligation the length
field is header + record); when `Size` is nonzero the structured length
is 0 and the reply is the out-header plus flat data only.  The status-OK
restriction is forced by the counterexample: on a failure status the
structured data is dropped even when `Size = 0`. -/
theorem xattr_dual_mode (reg : Registry) (r : request) (k flat : Nat)
    (h : operationHandler)
    (hin : r.inputBuf.length ≠ 0) (hout : r.outputBuf = some k) (hk : k ≠ 0)
    (hop : r.Opcode = _OP_GETXATTR ∨ r.Opcode = _OP_LISTXATTR)
    (hreg : reg r.Opcode = some h) (hOK : r.status = OK)
    (hpos : 0 < h.OutputSize)
    (hcap : h.OutputSize + sizeOfOutHeader ≤ outputHeaderSize)
    (hov : sizeOfOutHeader + h.OutputSize + flat < 2^32) :
    (r.xattrInSize = 0 →
      ∃ r', serializeHeader reg r flat = some r' ∧
        r'.outputBuf = some (h.OutputSize + sizeOfOutHeader) ∧
        0 < h.OutputSize ∧
        r'.replyLength = sizeOfOutHeader + h.OutputSize + flat) ∧
    (r.xattrInSize ≠ 0 →
      ∃ r', serializeHeader reg r flat = some r' ∧
        r'.outputBuf = some sizeOfOutHeader ∧
        r'.replyLength = sizeOfOutHeader + flat) := by
  have hst : r.status < 2^31 := by rw [hOK]; norm_num [OK]
  constructor
  · intro h0
    have hdl := dataLengthOf_xattr_size0 reg r h hreg hOK h0
    obtain ⟨r', he, hL, -, -, hOB, -, -, -, -⟩ :=
      serializeHeader_fields reg r flat k hin hout hk
        (by rw [hdl]; exact hcap) hst
    refine ⟨r', he, ?_, hpos, ?_⟩
    · rw [hOB, hdl]
    · rw [hL, hdl]
      exact Nat.mod_eq_of_lt hov
  · intro h1
    have hdl := dataLengthOf_xattr_data reg r hop h1
    obtain ⟨r', he, hL, -, -, hOB, -, -, -, -⟩ :=
      serializeHeader_fields reg r flat k hin hout hk
        (by rw [hdl]; norm_num [sizeOfOutHeader, outputHeaderSize]) hst
    refine ⟨r', he, ?_, ?_⟩
    · rw [hOB, hdl]
      norm_num
    · rw [hL, hdl]
      rw [Nat.add_zero]
      exact Nat.mod_eq_of_lt (by omega)

set_option maxRecDepth 10000 in
/-- Counterexample to claim C2 as stated: a GETXATTR request with input
`Size = 0` but failure status gets a header-only reply — the structured
length is 0, not nonzero as the unrestricted claim asserts. -/
theorem xattr_dual_mode_cx :
    gxErrReq.Opcode = _OP_GETXATTR ∧ gxErrReq.xattrInSize = 0 ∧
    sampleHandlers gxErrReq.Opcode = some ⟨48, 8, 1, false⟩ ∧
    OK < gxErrReq.status ∧
    (serializeHeader sampleHandlers gxErrReq 0).map request.outputBuf =
      some (some sizeOfOutHeader) ∧
    (serializeHeader sampleHandlers gxErrReq 0).map request.replyLength =
      some sizeOfOutHeader := by
  decide

set_option maxRecDepth 10000 in
/-- Witness for C2 on a concrete GETXATTR sizing query. -/
theorem xattr_dual_mode_witness :
    (gxSizeReq.xattrInSize = 0 →
      ∃ r', serializeHeader sampleHandlers gxSizeReq 0 = some r' ∧
        r'.outputBuf = some (8 + sizeOfOutHeader) ∧ (0 : Nat) < 8 ∧
        r'.replyLength = sizeOfOutHeader + 8 + 0) ∧
    (gxSizeReq.xattrInSize ≠ 0 →
      ∃ r', serializeHeader sampleHandlers gxSizeReq 0 = some r' ∧
        r'.outputBuf = some sizeOfOutHeader ∧
        r'.replyLength = sizeOfOutHeader + 0) :=
  xattr_dual_mode sampleHandlers gxSizeReq 24 0 ⟨48, 8, 1, false⟩ (by decide)
    (by decide) (by decide) (by decide) (by decide) (by decide) (by decide)
    (by decide) (by decide)

/-- A frame whose opcode has no registry entry parses to ENOSYS status
with everything else untouched (lines 185–190). -/
theorem parse_eq_unknown (reg : Registry) (ks : KernelSettings) (r : request)
    (hne : r.inputBuf.length ≠ 0) (hreg : reg r.Opcode = none) :
    parse reg ks r = some { r with status := ENOSYS } := by
  unfold parse
  rw [if_neg hne, hreg]

/-- A frame shorter than the expected input size parses to EIO status
(lines 200–204). -/
theorem parse_eq_short (reg : Registry) (ks : KernelSettings) (r : request)
    (h : operationHandler) (hreg : reg r.Opcode = some h)
    (hne : r.inputBuf.length ≠ 0)
    (hchk : r.inputBuf.length <
      computeInSz ks r.Opcode h r.arg.length r.inputBuf.length) :
    parse reg ks r = some { r with status := EIO } := by
  unfold parse
  rw [if_neg hne, hreg]
  simp only [if_pos hchk]

/-- Closed form of a full non-panicking `parse` run (lines 192–236). -/
theorem parse_eq_of (reg : Registry) (ks : KernelSettings) (r : request)
    (h : operationHandler) (argOff : Nat) (hreg : reg r.Opcode = some h)
    (hne : r.inputBuf.length ≠ 0)
    (hchk : ¬ r.inputBuf.length <
      computeInSz ks r.Opcode h r.arg.length r.inputBuf.length)
    (hoffdef : argOff = (if 0 < h.InputSize then
      computeInSz ks r.Opcode h r.arg.length r.inputBuf.length
      else sizeOfInHeader))
    (hoff : ¬ r.inputBuf.length < argOff)
    (names : List (List Nat)) (mismatch : Bool)
    (hn : parseNames r.Opcode h.FileNames (r.inputBuf.drop argOff) r.filenames =
      some (names, mismatch))
    (hcap : ¬ outputHeaderSize < h.OutputSize + sizeOfOutHeader) :
    parse reg ks r = some { r with
      arg := r.inputBuf.drop argOff,
      filenames := names,
      status := if mismatch then EIO else r.status,
      outBuf := List.replicate (h.OutputSize + sizeOfOutHeader) 0 ++
        r.outBuf.drop (h.OutputSize + sizeOfOutHeader),
      outputBuf := some (h.OutputSize + sizeOfOutHeader) } := by
  unfold parse
  rw [if_neg hne, hreg]
  simp only [if_neg hchk]
  rw [← hoffdef]
  simp only [if_neg hoff, hn, if_neg hcap]

/-- The expected input size stays at least the in-header for opcodes with
a fixed input record. -/
theorem computeInSz_ge (ks : KernelSettings) (op : Nat) (h : operationHandler)
    (argLen inputLen : Nat) (hwf : sizeOfInHeader ≤ h.InputSize)
    (hlen : sizeOfInHeader ≤ inputLen) :
    sizeOfInHeader ≤ computeInSz ks op h argLen inputLen := by
  simp only [computeInSz]
  split_ifs <;>
    first
    | exact hlen
    | exact hwf
    | norm_num [sizeOfRenameIn, sizeOfInHeader]

/-- Claim C8: for every inbound frame with a recognized opcode (and a
full in-header, which the dispatcher guarantees before parsing), the
parser verifies `len(inputBuf) >= inHeader_size + inputRecord_size` —
the expected size of step 3, which for fixed-record opcodes equals
`inHeader_size + (size - inHeader_size)` since the input records embed
the header — setting status to I/O error and returning when the check
fails; when it succeeds, whatever `parse` returns has `arg` equal to the
subslice of `inputBuf` from offset `inHeader_size + inputRecord_size`
for opcodes with a fixed input record and from offset `inHeader_size`
for zero-input-record opcodes, so `len(arg) = len(inputBuf) - offset`. -/
theorem parse_arg_layout (reg : Registry) (ks : KernelSettings) (r : request)
    (h : operationHandler) (hreg : reg r.Opcode = some h)
    (h40 : sizeOfInHeader ≤ r.inputBuf.length)
    (hwf : h.InputSize = 0 ∨ sizeOfInHeader ≤ h.InputSize) :
    (r.inputBuf.length < computeInSz ks r.Opcode h r.arg.length r.inputBuf.length →
      parse reg ks r = some { r with status := EIO }) ∧
    (∀ r', parse reg ks r = some r' →
      ¬ r.inputBuf.length < computeInSz ks r.Opcode h r.arg.length r.inputBuf.length →
      ((0 < h.InputSize →
        sizeOfInHeader + (computeInSz ks r.Opcode h r.arg.length r.inputBuf.length -
          sizeOfInHeader) =
          computeInSz ks r.Opcode h r.arg.length r.inputBuf.length ∧
        r'.arg = r.inputBuf.drop
          (computeInSz ks r.Opcode h r.arg.length r.inputBuf.length) ∧
        r'.arg.length = r.inputBuf.length -
          computeInSz ks r.Opcode h r.arg.length r.inputBuf.length) ∧
       (h.InputSize = 0 →
        r'.arg = r.inputBuf.drop sizeOfInHeader ∧
        r'.arg.length = r.inputBuf.length - sizeOfInHeader))) := by
  have hpos40 : (0 : Nat) < sizeOfInHeader := by norm_num [sizeOfInHeader]
  have hne : r.inputBuf.length ≠ 0 := by omega
  constructor
  · intro hchk
    exact parse_eq_short reg ks r h hreg hne hchk
  · intro r' hp hchk
    unfold parse at hp
    rw [if_neg hne, hreg] at hp
    simp only [if_neg hchk] at hp
    by_cases hpos : 0 < h.InputSize
    · simp only [if_pos hpos, if_neg hchk] at hp
      cases hq : parseNames r.Opcode h.FileNames
          (r.inputBuf.drop (computeInSz ks r.Opcode h r.arg.length r.inputBuf.length))
          r.filenames with
      | none =>
        simp only [hq] at hp
        exact absurd hp (by simp)
      | some nm =>
        obtain ⟨names, mismatch⟩ := nm
        simp only [hq] at hp
        by_cases hcap : outputHeaderSize < h.OutputSize + sizeOfOutHeader
        · simp only [if_pos hcap] at hp
          exact absurd hp (by simp)
        · simp only [if_neg hcap] at hp
          have hrec := Option.some.inj hp
          subst hrec
          have hge : sizeOfInHeader ≤
              computeInSz ks r.Opcode h r.arg.length r.inputBuf.length := by
            rcases hwf with h0 | hge40
            · omega
            · exact computeInSz_ge ks r.Opcode h r.arg.length r.inputBuf.length
                hge40 h40
          refine ⟨fun _ => ⟨by omega, rfl, by simp [List.length_drop]⟩,
            fun h0 => absurd hpos (by omega)⟩
    · have h0 : h.InputSize = 0 := by omega
      simp only [if_neg hpos] at hp
      have hoff : ¬ r.inputBuf.length < sizeOfInHeader := by omega
      simp only [if_neg hoff] at hp
      cases hq : parseNames r.Opcode h.FileNames
          (r.inputBuf.drop sizeOfInHeader) r.filenames with
      | none =>
        simp only [hq] at hp
        exact absurd hp (by simp)
      | some nm =>
        obtain ⟨names, mismatch⟩ := nm
        simp only [hq] at hp
        by_cases hcap : outputHeaderSize < h.OutputSize + sizeOfOutHeader
        · simp only [if_pos hcap] at hp
          exact absurd hp (by simp)
        · simp only [if_neg hcap] at hp
          have hrec := Option.some.inj hp
          subst hrec
          refine ⟨fun hp' => absurd hp' hpos,
            fun _ => ⟨rfl, by simp [List.length_drop]⟩⟩

set_option maxRecDepth 10000 in
/-- Witness for C8 on a concrete 56-byte GETATTR frame. -/
theorem parse_arg_layout_witness :
    ∃ r', parse sampleHandlers ks0 gaParseReq = some r' ∧
      r'.arg = gaParseReq.inputBuf.drop 56 ∧ r'.arg.length = 0 := by
  have h := (parse_arg_layout sampleHandlers ks0 gaParseReq ⟨56, 104, 0, false⟩
    (by decide) (by decide) (by decide)).2
  cases hp : parse sampleHandlers ks0 gaParseReq with
  | none => exact absurd hp (by decide)
  | some r' =>
    obtain ⟨h1, -⟩ := h r' hp (by decide)
    obtain ⟨-, ha, hl⟩ := h1 (by decide)
    refine ⟨r', rfl, ?_, ?_⟩
    · rw [ha]
      decide
    · rw [hl]
      decide

/-- Claim C7 (amended): on a recycled request (`arg` is empty when parse
starts), the INIT comparison of line 196 is made against the
not-yet-assigned `arg`, so for every INIT frame — shorter or longer than
the declared input size — the parser adopts the received full-frame
length as the input size: an `InitIn` shorter than the declared size is
accepted with status OK, but the declared size is never kept; the
resulting `arg` is always empty. -/
theorem init_adopts_received (reg : Registry) (ks : KernelSettings)
    (r : request) (h : operationHandler) (hreg : reg r.Opcode = some h)
    (hop : r.Opcode = _OP_INIT) (hargnil : r.arg = [])
    (hOK : r.status = OK)
    (h40 : sizeOfInHeader ≤ r.inputBuf.length) (hpos : 0 < h.InputSize)
    (hF : h.FileNames = 0)
    (hcap : h.OutputSize + sizeOfOutHeader ≤ outputHeaderSize) :
    ∃ r', parse reg ks r = some r' ∧ r'.status = OK ∧ r'.arg = [] := by
  have hrn : ¬(r.Opcode = _OP_RENAME ∧ ks.supportsRenameSwap = true) := by
    rw [hop]
    rintro ⟨hc, -⟩
    norm_num [_OP_INIT, _OP_RENAME] at hc
  have hsz : computeInSz ks r.Opcode h r.arg.length r.inputBuf.length =
      r.inputBuf.length := by
    simp only [computeInSz]
    rw [if_neg hrn]
    rw [if_pos ⟨hop, by rw [hargnil]; simpa using hpos⟩]
  have hne : r.inputBuf.length ≠ 0 := by
    have : (0 : Nat) < sizeOfInHeader := by norm_num [sizeOfInHeader]
    omega
  have hpe := parse_eq_of reg ks r h r.inputBuf.length hreg hne
    (by rw [hsz]; omega) (by rw [if_pos hpos, hsz]) (by omega)
    r.filenames false (by simp [parseNames, hF]) (by omega)
  refine ⟨_, hpe, ?_, ?_⟩
  · simp [hOK]
  · simp [List.drop_length]

set_option maxRecDepth 10000 in
/-- Counterexample to claim C7 as stated: a 112-byte INIT frame is at
least the declared 104-byte size, yet the declared size is not kept —
the parser adopts the received 112, leaving `arg` empty rather than the
8 bytes past the declared record. -/
theorem init_adopts_received_cx :
    initParseReq112.inputBuf.length = 112 ∧
    sampleHandlers initParseReq112.Opcode = some ⟨104, 64, 0, false⟩ ∧
    (parse sampleHandlers ks0 initParseReq112).map request.arg = some [] ∧
    initParseReq112.inputBuf.drop 104 ≠ [] := by
  decide

set_option maxRecDepth 10000 in
/-- Witness for C7 on an 80-byte (short) INIT frame, accepted with OK. -/
theorem init_adopts_received_witness :
    ∃ r', parse sampleHandlers ks0 initParseReq80 = some r' ∧
      r'.status = OK ∧ r'.arg = [] :=
  init_adopts_received sampleHandlers ks0 initParseReq80 ⟨104, 64, 0, false⟩
    (by decide) (by decide) (by decide) (by decide) (by decide) (by decide)
    (by decide) (by decide)

/-- `bytes.SplitN` helper: the scan up to the first NUL keeps the
NUL-free head. -/
theorem takeWhile_append_nul (name value : List Nat) (h : (0 : Nat) ∉ name) :
    (name ++ 0 :: value).takeWhile (fun b => b != 0) = name := by
  induction name with
  | nil => simp [List.takeWhile]
  | cons a t ih =>
    have ha : a ≠ 0 := fun e => h (e ▸ List.mem_cons_self a t)
    have ht : (0 : Nat) ∉ t := fun hm => h (List.mem_cons_of_mem a hm)
    simp only [List.cons_append, List.takeWhile]
    rw [show (a != 0) = true by simpa using ha]
    show a :: (t ++ 0 :: value).takeWhile (fun b => b != 0) = a :: t
    rw [ih ht]

/-- `bytes.SplitN` helper: the scan past the first NUL leaves the NUL and
the tail. -/
theorem dropWhile_append_nul (name value : List Nat) (h : (0 : Nat) ∉ name) :
    (name ++ 0 :: value).dropWhile (fun b => b != 0) = 0 :: value := by
  induction name with
  | nil => simp [List.dropWhile]
  | cons a t ih =>
    have ha : a ≠ 0 := fun e => h (e ▸ List.mem_cons_self a t)
    have ht : (0 : Nat) ∉ t := fun hm => h (List.mem_cons_of_mem a hm)
    simp only [List.cons_append, List.dropWhile]
    rw [show (a != 0) = true by simpa using ha]
    show (t ++ 0 :: value).dropWhile (fun b => b != 0) = 0 :: value
    exact ih ht

/-- `bytes.SplitN(name ++ NUL ++ value, NUL, 2)` splits on the first NUL. -/
theorem bytesSplitN_two (name value : List Nat) (h : (0 : Nat) ∉ name) :
    bytesSplitN 2 (name ++ 0 :: value) = [name, value] := by
  have hmem : (0 : Nat) ∈ name ++ 0 :: value :=
    List.mem_append_right name (List.mem_cons_self 0 value)
  show bytesSplitN (0 + 2) (name ++ 0 :: value) = [name, value]
  unfold bytesSplitN
  rw [if_pos hmem]
  rw [takeWhile_append_nul name value h, dropWhile_append_nul name value h]
  rfl

/-- Claim C5: for every SETXATTR request whose argument region is
name-bytes, a NUL, then value-bytes (the name NUL-free), parse splits on
the first NUL, sets `filenames` to the single name equal to the part
before that NUL, and leaves the whole region in `arg`, so the value
bytes are still available to the handler right after the name and its
NUL. -/
theorem setxattr_split (reg : Registry) (ks : KernelSettings) (r : request)
    (h : operationHandler) (name value : List Nat)
    (hreg : reg r.Opcode = some h) (hop : r.Opcode = _OP_SETXATTR)
    (hF : h.FileNames = 1) (hpos : 0 < h.InputSize)
    (hchk : h.InputSize ≤ r.inputBuf.length)
    (harg : r.inputBuf.drop h.InputSize = name ++ 0 :: value)
    (hname : (0 : Nat) ∉ name)
    (hcap : h.OutputSize + sizeOfOutHeader ≤ outputHeaderSize) :
    ∃ r', parse reg ks r = some r' ∧
      r'.filenames = [name] ∧
      r'.arg = name ++ 0 :: value ∧
      r'.arg.drop (name.length + 1) = value := by
  have hrn : ¬(r.Opcode = _OP_RENAME ∧ ks.supportsRenameSwap = true) := by
    rw [hop]
    rintro ⟨hc, -⟩
    norm_num [_OP_SETXATTR, _OP_RENAME] at hc
  have hini : ¬(r.Opcode = _OP_INIT ∧ r.arg.length < h.InputSize) := by
    rw [hop]
    rintro ⟨hc, -⟩
    norm_num [_OP_SETXATTR, _OP_INIT] at hc
  have hsz : computeInSz ks r.Opcode h r.arg.length r.inputBuf.length =
      h.InputSize := by
    simp only [computeInSz]
    rw [if_neg hrn]
    rw [if_neg hini]
  have hne : r.inputBuf.length ≠ 0 := by omega
  have hnames : parseNames r.Opcode h.FileNames (r.inputBuf.drop h.InputSize)
      r.filenames = some ([name], false) := by
    rw [hop, hF, harg]
    simp only [parseNames, bytesSplitN_two name value hname]
    norm_num
  have hpe := parse_eq_of reg ks r h h.InputSize hreg hne
    (by rw [hsz]; omega) (by rw [if_pos hpos, hsz]) (by omega)
    [name] false hnames (by omega)
  refine ⟨_, hpe, rfl, harg, ?_⟩
  show (r.inputBuf.drop h.InputSize).drop (name.length + 1) = value
  rw [harg]
  rw [show name ++ 0 :: value = (name ++ [0]) ++ value by simp]
  rw [show name.length + 1 = (name ++ [0]).length by simp]
  exact List.drop_left _ _

set_option maxRecDepth 10000 in
/-- Witness for C5 on the concrete frame carrying `\"user.foo\" NUL` and
four value bytes. -/
theorem setxattr_split_witness :
    ∃ r', parse sampleHandlers ks0 sxParseReq = some r' ∧
      r'.filenames = [[117, 115, 101, 114, 46, 102, 111, 111]] ∧
      r'.arg = [117, 115, 101, 114, 46, 102, 111, 111] ++ 0 :: [1, 2, 3, 4] ∧
      r'.arg.drop ([117, 115, 101, 114, 46, 102, 111, 111].length + 1) =
        [1, 2, 3, 4] :=
  setxattr_split sampleHandlers ks0 sxParseReq ⟨48, 0, 1, false⟩
    [117, 115, 101, 114, 46, 102, 111, 111] [1, 2, 3, 4] (by decide)
    (by decide) (by decide) (by decide) (by decide) (by decide) (by decide)
    (by decide)

/-- State of a recycled request after the dispatcher glue (clear, store
the frame, make the out-header scratch available): the frame bytes are
in `inputBuf` and every per-request output field is reset. -/
theorem pipe_state (r0 : request) (input : GoSlice) :
    ({ (r0.clear.setInput input).1 with
        outputBuf := some sizeOfOutHeader } : request).inputBuf = input.bytes ∧
    ({ (r0.clear.setInput input).1 with
        outputBuf := some sizeOfOutHeader } : request).arg = [] ∧
    ({ (r0.clear.setInput input).1 with
        outputBuf := some sizeOfOutHeader } : request).filenames = [] ∧
    ({ (r0.clear.setInput input).1 with
        outputBuf := some sizeOfOutHeader } : request).status = OK ∧
    ({ (r0.clear.setInput input).1 with
        outputBuf := some sizeOfOutHeader } : request).flatData = [] ∧
    ({ (r0.clear.setInput input).1 with
        outputBuf := some sizeOfOutHeader } : request).fdData = none ∧
    ({ (r0.clear.setInput input).1 with
        outputBuf := some sizeOfOutHeader } : request).outBuf = r0.outBuf := by
  obtain ⟨h1, h2, h3, h4, h5, h6, h7, h8⟩ := setInput_fst_fields r0.clear input
  exact ⟨h1, h2.trans rfl, h3.trans rfl, h4.trans rfl, h5.trans rfl,
    h6.trans rfl, h7.trans rfl⟩

/-- When the frame covers the in-header, the pipeline is parse followed
by serialization of the parsed request. -/
theorem handleFrame_parse_some (reg : Registry) (ks : KernelSettings)
    (r0 : request) (input : GoSlice) (r3 : request)
    (h40 : sizeOfInHeader ≤ input.bytes.length)
    (hp : parse reg ks ({ (r0.clear.setInput input).1 with
        outputBuf := some sizeOfOutHeader }) = some r3) :
    handleFrame reg ks r0 input = serializeHeader reg r3 r3.flatDataSize := by
  obtain ⟨h1, -, -, -, -, -, -⟩ := pipe_state r0 input
  unfold handleFrame
  rw [if_neg (by rw [h1]; omega), hp]

/-- Claim C3: for every inbound frame whose opcode has no registry entry,
the parser sets the request status to ENOSYS and the serialized reply is
header-only: its length field equals `outHeader_size`, its status field
decodes to the negated ENOSYS value, and its unique echoes the inbound
unique. -/
theorem unknown_opcode_reply (reg : Registry) (ks : KernelSettings)
    (r0 : request) (input : GoSlice)
    (hreg : reg (readU32 input.bytes 4) = none)
    (h40 : sizeOfInHeader ≤ input.bytes.length) :
    ∃ r', handleFrame reg ks r0 input = some r' ∧
      r'.status = ENOSYS ∧ r'.outputBuf = some sizeOfOutHeader ∧
      r'.replyLength = sizeOfOutHeader ∧
      decodeI32 r'.replyStatusRaw = -(ENOSYS : Int) ∧
      r'.replyUnique = readU64 input.bytes 8 := by
  obtain ⟨e1, e2, e3, e4, e5, e6, e7⟩ := pipe_state r0 input
  set r2 : request := { (r0.clear.setInput input).1 with
    outputBuf := some sizeOfOutHeader } with hr2
  have hne : r2.inputBuf.length ≠ 0 := by
    rw [e1]
    have : (0 : Nat) < sizeOfInHeader := by norm_num [sizeOfInHeader]
    omega
  have hop : r2.Opcode = readU32 input.bytes 4 := by
    unfold request.Opcode
    rw [e1]
  have hp : parse reg ks r2 = some { r2 with status := ENOSYS } :=
    parse_eq_unknown reg ks r2 hne (by rw [hop]; exact hreg)
  have hmain := handleFrame_parse_some reg ks r0 input _ h40 hp
  set r3 : request := { r2 with status := ENOSYS } with hr3
  have hdl : dataLengthOf reg r3 = 0 :=
    dataLengthOf_err reg r3 (by show OK < ENOSYS; norm_num [OK, ENOSYS])
  have hfds : r3.flatDataSize = 0 := by
    unfold request.flatDataSize
    have hfd : r3.fdData = none := e6
    rw [hfd]
    have hfl : r3.flatData = [] := e5
    rw [hfl]
    rfl
  obtain ⟨r', he, hL, hS, hU, hOB, hst', -, -, -⟩ :=
    serializeHeader_fields reg r3 r3.flatDataSize sizeOfOutHeader hne
      rfl (by norm_num [sizeOfOutHeader])
      (by rw [hdl]; norm_num [sizeOfOutHeader, outputHeaderSize])
      (by show ENOSYS < 2^31; norm_num [ENOSYS])
  refine ⟨r', hmain.trans he, hst'.trans rfl, ?_, ?_, ?_, ?_⟩
  · rw [hOB, hdl]
    norm_num
  · rw [hL, hdl, hfds]
    norm_num [sizeOfOutHeader]
  · exact hS
  · rw [hU]
    unfold request.Unique
    rw [show r3.inputBuf = input.bytes from e1]

set_option maxRecDepth 10000 in
/-- Witness for C3 on the concrete opcode-0xFFFF frame. -/
theorem unknown_opcode_reply_witness :
    ∃ r', handleFrame sampleHandlers ks0 freshRequest ⟨unknownFrame, []⟩ = some r' ∧
      r'.status = ENOSYS ∧ r'.outputBuf = some sizeOfOutHeader ∧
      r'.replyLength = sizeOfOutHeader ∧
      decodeI32 r'.replyStatusRaw = -(ENOSYS : Int) ∧
      r'.replyUnique = readU64 unknownFrame 8 :=
  unknown_opcode_reply sampleHandlers ks0 freshRequest ⟨unknownFrame, []⟩
    (by decide) (by decide)

/-- Field view of a full non-panicking `parse` run. -/
theorem parse_some_fields (reg : Registry) (ks : KernelSettings) (r : request)
    (h : operationHandler) (argOff : Nat) (hreg : reg r.Opcode = some h)
    (hne : r.inputBuf.length ≠ 0)
    (hchk : ¬ r.inputBuf.length <
      computeInSz ks r.Opcode h r.arg.length r.inputBuf.length)
    (hoffdef : argOff = (if 0 < h.InputSize then
      computeInSz ks r.Opcode h r.arg.length r.inputBuf.length
      else sizeOfInHeader))
    (hoff : ¬ r.inputBuf.length < argOff)
    (names : List (List Nat)) (mismatch : Bool)
    (hn : parseNames r.Opcode h.FileNames (r.inputBuf.drop argOff) r.filenames =
      some (names, mismatch))
    (hcap : ¬ outputHeaderSize < h.OutputSize + sizeOfOutHeader) :
    ∃ r3, parse reg ks r = some r3 ∧
      r3.arg = r.inputBuf.drop argOff ∧
      r3.filenames = names ∧
      r3.status = (if mismatch then EIO else r.status) ∧
      r3.outputBuf = some (h.OutputSize + sizeOfOutHeader) ∧
      r3.inputBuf = r.inputBuf ∧
      r3.flatData = r.flatData ∧ r3.fdData = r.fdData ∧
      r3.Opcode = r.Opcode ∧ r3.Unique = r.Unique ∧
      r3.xattrInSize = r.xattrInSize ∧
      r3.outBuf = List.replicate (h.OutputSize + sizeOfOutHeader) 0 ++
        r.outBuf.drop (h.OutputSize + sizeOfOutHeader) :=
  ⟨_, parse_eq_of reg ks r h argOff hreg hne hchk hoffdef hoff names mismatch
      hn hcap,
    rfl, rfl, rfl, rfl, rfl, rfl, rfl, rfl, rfl, rfl, rfl⟩

/-- Claim C9 (amended): for every well-formed inbound frame — recognized
non-xattr opcode, length at least the expected input size, filename
arguments extracted without mismatch — the pipeline serialize(parse(frame))
under the identity handler (echo OK, no payload) yields a reply whose
header length field equals `outHeader_size` *plus the opcode's declared
output-record size* (so equals `outHeader_size` exactly when that size is
zero) and whose unique matches the input.  The original claim's plain
`length = outHeader_size` fails for opcodes with structured output. -/
theorem roundtrip_reply (reg : Registry) (ks : KernelSettings)
    (r0 : request) (input : GoSlice) (h : operationHandler)
    (names : List (List Nat))
    (hreg : reg (readU32 input.bytes 4) = some h)
    (h40 : sizeOfInHeader ≤ input.bytes.length)
    (hnx : readU32 input.bytes 4 ≠ _OP_GETXATTR ∧
      readU32 input.bytes 4 ≠ _OP_LISTXATTR)
    (hlen : computeInSz ks (readU32 input.bytes 4) h 0 input.bytes.length ≤
      input.bytes.length)
    (hn : parseNames (readU32 input.bytes 4) h.FileNames
      (input.bytes.drop (if 0 < h.InputSize then
        computeInSz ks (readU32 input.bytes 4) h 0 input.bytes.length
        else sizeOfInHeader)) [] = some (names, false))
    (hoffle : (if 0 < h.InputSize then
        computeInSz ks (readU32 input.bytes 4) h 0 input.bytes.length
        else sizeOfInHeader) ≤ input.bytes.length)
    (hcap : h.OutputSize + sizeOfOutHeader ≤ outputHeaderSize) :
    ∃ r', handleFrame reg ks r0 input = some r' ∧
      r'.status = OK ∧
      r'.replyLength = sizeOfOutHeader + h.OutputSize ∧
      (h.OutputSize = 0 → r'.replyLength = sizeOfOutHeader) ∧
      r'.replyUnique = readU64 input.bytes 8 ∧
      r'.outputBuf = some (h.OutputSize + sizeOfOutHeader) := by
  have h16 : sizeOfOutHeader = 16 := rfl
  have h200 : outputHeaderSize = 200 := rfl
  obtain ⟨e1, e2, e3, e4, e5, e6, e7⟩ := pipe_state r0 input
  set r2 : request := { (r0.clear.setInput input).1 with
    outputBuf := some sizeOfOutHeader } with hr2
  have hne : r2.inputBuf.length ≠ 0 := by
    rw [e1]
    have : (0 : Nat) < sizeOfInHeader := by norm_num [sizeOfInHeader]
    omega
  have hop : r2.Opcode = readU32 input.bytes 4 := by
    unfold request.Opcode
    rw [e1]
  have hal : r2.arg.length = 0 := by rw [e2]; rfl
  obtain ⟨r3, hp, ha3, hf3, hs3, hob3, hib3, hfl3, hfd3, hop3, hu3, -, -⟩ :=
    parse_some_fields reg ks r2 h
      (if 0 < h.InputSize then
        computeInSz ks (readU32 input.bytes 4) h 0 input.bytes.length
        else sizeOfInHeader)
      (by rw [hop]; exact hreg) hne
      (by rw [hop, hal, e1]; omega)
      (by rw [hop, hal, e1])
      (by rw [e1]; omega)
      names false
      (by rw [hop, e1, e3]; exact hn)
      (by omega)
  have hmain := handleFrame_parse_some reg ks r0 input r3 h40 hp
  have hst3 : r3.status = OK := by rw [hs3]; simpa using e4
  have hopx : r3.Opcode = readU32 input.bytes 4 := by rw [hop3]; exact hop
  have hdl : dataLengthOf reg r3 = h.OutputSize := by
    rw [dataLengthOf_plain reg r3 hst3
      (by rw [hopx]; rintro (hc | hc); exacts [hnx.1 hc, hnx.2 hc])]
    rw [hopx, hreg]
    rfl
  have hfds : r3.flatDataSize = 0 := by
    unfold request.flatDataSize
    rw [show r3.fdData = none from by rw [hfd3]; exact e6]
    rw [show r3.flatData = [] from by rw [hfl3]; exact e5]
    rfl
  obtain ⟨r', he, hL, hS, hU, hOB, hst', -, -, -⟩ :=
    serializeHeader_fields reg r3 r3.flatDataSize (h.OutputSize + sizeOfOutHeader)
      (by rw [hib3]; exact hne) hob3 (by omega)
      (by rw [hdl]; exact hcap)
      (by rw [hst3]; norm_num [OK])
  have hRL : r'.replyLength = sizeOfOutHeader + h.OutputSize := by
    rw [hL, hdl, hfds, Nat.add_zero]
    exact Nat.mod_eq_of_lt (by omega)
  refine ⟨r', hmain.trans he, hst'.trans hst3, hRL, ?_, ?_, ?_⟩
  · intro h0
    rw [hRL, h0]
    norm_num
  · rw [hU, hu3]
    unfold request.Unique
    rw [e1]
  · rw [hOB, hdl]

set_option maxRecDepth 20000 in
/-- Counterexample to claim C9 as stated: a well-formed GETATTR frame
under the identity handler round-trips to a reply with length field
16 + 104 = 120, not `outHeader_size`. -/
theorem roundtrip_reply_cx :
    sampleHandlers (readU32 getattrFrame 4) = some ⟨56, 104, 0, false⟩ ∧
    (handleFrame sampleHandlers ks0 freshRequest ⟨getattrFrame, []⟩).map
      request.replyLength = some 120 ∧
    (handleFrame sampleHandlers ks0 freshRequest ⟨getattrFrame, []⟩).map
      request.status = some OK ∧
    (120 : Nat) ≠ sizeOfOutHeader := by
  decide

set_option maxRecDepth 20000 in
/-- Witness for C9 on a concrete LOOKUP frame naming `\"ab\"`. -/
theorem roundtrip_reply_witness :
    ∃ r', handleFrame sampleHandlers ks0 freshRequest ⟨lookupFrameAB, []⟩ = some r' ∧
      r'.status = OK ∧
      r'.replyLength = sizeOfOutHeader + 128 ∧
      ((128 : Nat) = 0 → r'.replyLength = sizeOfOutHeader) ∧
      r'.replyUnique = readU64 lookupFrameAB 8 ∧
      r'.outputBuf = some (128 + sizeOfOutHeader) :=
  roundtrip_reply sampleHandlers ks0 freshRequest ⟨lookupFrameAB, []⟩
    ⟨0, 128, 1, false⟩ [[97, 98]] (by decide) (by decide) (by decide)
    (by decide) (by decide) (by decide) (by decide)

/-- Filename extraction cannot panic when a filename-carrying
non-SETXATTR opcode has a nonempty argument region (SETXATTR's split
and the zero-name case are always safe). -/
theorem parseNames_total (op count : Nat) (arg : List Nat)
    (prior : List (List Nat))
    (hne : ¬(count = 1 ∧ op = _OP_SETXATTR) → 1 ≤ count → arg ≠ []) :
    ∃ nm, parseNames op count arg prior = some nm := by
  unfold parseNames
  by_cases h0 : count = 0
  · rw [if_pos h0]
    exact ⟨_, rfl⟩
  · rw [if_neg h0]
    by_cases hsx : count = 1 ∧ op = _OP_SETXATTR
    · rw [if_pos hsx]
      exact ⟨_, rfl⟩
    · rw [if_neg hsx]
      have hargne : arg ≠ [] := hne hsx (by omega)
      have hlen : ¬ arg.length = 0 := fun hl => hargne (List.eq_nil_of_length_eq_zero hl)
      by_cases h1 : count = 1
      · rw [if_pos h1, if_neg hlen]
        exact ⟨_, rfl⟩
      · rw [if_neg h1, if_neg hlen]
        exact ⟨_, rfl⟩

/-- The structured length never exceeds the registry entry's declared
output size. -/
theorem dataLengthOf_le (reg : Registry) (r : request) (hh : operationHandler)
    (hreg : reg r.Opcode = some hh) : dataLengthOf reg r ≤ hh.OutputSize := by
  simp only [dataLengthOf, hreg]
  split_ifs <;> omega

/-- Any successfully parsed request whose state is sane (live buffers,
structured length within the inline array, errno-sized status, no flat
payload) serializes into a coherent reply frame. -/
theorem pipeline_valid_of_parse (reg : Registry) (ks : KernelSettings)
    (r0 : request) (input : GoSlice) (r3 : request) (k : Nat)
    (h40 : sizeOfInHeader ≤ input.bytes.length)
    (hp : parse reg ks ({ (r0.clear.setInput input).1 with
      outputBuf := some sizeOfOutHeader }) = some r3)
    (hne3 : r3.inputBuf.length ≠ 0)
    (hob : r3.outputBuf = some k) (hk : k ≠ 0)
    (hcap : dataLengthOf reg r3 + sizeOfOutHeader ≤ outputHeaderSize)
    (hst : r3.status < 2^31)
    (hfds : r3.flatDataSize = 0)
    (hol : r3.outBuf.length = outputHeaderSize) :
    ∃ r', handleFrame reg ks r0 input = some r' ∧ validReply r' := by
  have h16 : sizeOfOutHeader = 16 := rfl
  have h200 : outputHeaderSize = 200 := rfl
  have hmain := handleFrame_parse_some reg ks r0 input r3 h40 hp
  obtain ⟨r', he, hL, hS, hU, hOB, hst', hfl', hfd', hoblen'⟩ :=
    serializeHeader_fields reg r3 r3.flatDataSize k hne3 hob hk hcap hst
  have hfds' : r'.flatDataSize = 0 := by
    unfold request.flatDataSize at hfds ⊢
    rw [hfd', hfl']
    exact hfds
  refine ⟨r', hmain.trans he, ?_⟩
  unfold validReply
  refine ⟨dataLengthOf reg r3 + sizeOfOutHeader, hOB, Nat.le_add_left _ _, ?_, ?_⟩
  · rw [hoblen', hol]
    omega
  · rw [hL, hfds, hfds']
    rw [Nat.add_zero, Nat.add_zero]
    have : sizeOfOutHeader + dataLengthOf reg r3 < 2^32 := by omega
    rw [Nat.mod_eq_of_lt this]
    omega

/-- Claim C4 (amended): for every inbound frame with at least a full
in-header whose recognized filename-carrying opcodes (one non-SETXATTR
name, or two names) have a nonempty filename argument region, running
parse followed by serializeHeader never panics and produces a coherent
reply frame, over any registry whose output records fit the inline
output array.  The counterexample forces the nonempty-argument proviso:
on a one-filename opcode with an empty argument region, parse slices
`arg[:len(arg)-1]` with `len(arg) = 0` and panics. -/
theorem pipeline_no_panic (reg : Registry) (ks : KernelSettings)
    (r0 : request) (input : GoSlice)
    (hob0 : r0.outBuf.length = outputHeaderSize)
    (hwf : ∀ op hh, reg op = some hh →
      hh.OutputSize + sizeOfOutHeader ≤ outputHeaderSize)
    (h40 : sizeOfInHeader ≤ input.bytes.length)
    (hnm : ∀ hh, reg (readU32 input.bytes 4) = some hh → 1 ≤ hh.FileNames →
      ¬(hh.FileNames = 1 ∧ readU32 input.bytes 4 = _OP_SETXATTR) →
      (if 0 < hh.InputSize then
        computeInSz ks (readU32 input.bytes 4) hh 0 input.bytes.length
        else sizeOfInHeader) < input.bytes.length) :
    ∃ r', handleFrame reg ks r0 input = some r' ∧ validReply r' := by
  have h16 : sizeOfOutHeader = 16 := rfl
  have h200 : outputHeaderSize = 200 := rfl
  have hin40 : sizeOfInHeader = 40 := rfl
  obtain ⟨e1, e2, e3, e4, e5, e6, e7⟩ := pipe_state r0 input
  set r2 : request := { (r0.clear.setInput input).1 with
    outputBuf := some sizeOfOutHeader } with hr2
  have hne : r2.inputBuf.length ≠ 0 := by
    rw [e1]
    omega
  have hop : r2.Opcode = readU32 input.bytes 4 := by
    unfold request.Opcode
    rw [e1]
  have hal : r2.arg.length = 0 := by rw [e2]; rfl
  cases hreg : reg (readU32 input.bytes 4) with
  | none =>
    have hp := parse_eq_unknown reg ks r2 hne (by rw [hop]; exact hreg)
    refine pipeline_valid_of_parse reg ks r0 input _ sizeOfOutHeader h40 hp
      hne rfl (by omega) ?_ ?_ ?_ ?_
    · rw [dataLengthOf_err reg _ (by show OK < ENOSYS; norm_num [OK, ENOSYS])]
      omega
    · show ENOSYS < 2^31
      norm_num [ENOSYS]
    · unfold request.flatDataSize
      rw [show ({ r2 with status := ENOSYS } : request).fdData = none from e6]
      rw [show ({ r2 with status := ENOSYS } : request).flatData = [] from e5]
      rfl
    · rw [show ({ r2 with status := ENOSYS } : request).outBuf = r0.outBuf from e7]
      exact hob0
  | some hh =>
    by_cases hchk : r2.inputBuf.length <
        computeInSz ks r2.Opcode hh r2.arg.length r2.inputBuf.length
    · have hp := parse_eq_short reg ks r2 hh (by rw [hop]; exact hreg) hne hchk
      refine pipeline_valid_of_parse reg ks r0 input _ sizeOfOutHeader h40 hp
        hne rfl (by omega) ?_ ?_ ?_ ?_
      · rw [dataLengthOf_err reg _ (by show OK < EIO; norm_num [OK, EIO])]
        omega
      · show EIO < 2^31
        norm_num [ EIO]
      · unfold request.flatDataSize
        rw [show ({ r2 with status := EIO } : request).fdData = none from e6]
        rw [show ({ r2 with status := EIO } : request).flatData = [] from e5]
        rfl
      · rw [show ({ r2 with status := EIO } : request).outBuf = r0.outBuf from e7]
        exact hob0
    · have hcap2 : hh.OutputSize + sizeOfOutHeader ≤ outputHeaderSize :=
        hwf _ hh hreg
      obtain ⟨⟨names, mismatch⟩, hq⟩ := parseNames_total
        (readU32 input.bytes 4) hh.FileNames
        (input.bytes.drop (if 0 < hh.InputSize then
          computeInSz ks (readU32 input.bytes 4) hh 0 input.bytes.length
          else sizeOfInHeader)) r2.filenames
        (by
          intro hcne hc1
          have hlt := hnm hh hreg hc1 hcne
          intro hnil
          rw [List.drop_eq_nil_iff] at hnil
          omega)
      have hoffle : (if 0 < hh.InputSize then
          computeInSz ks (readU32 input.bytes 4) hh 0 input.bytes.length
          else sizeOfInHeader) ≤ input.bytes.length := by
        by_cases hpos : 0 < hh.InputSize
        · rw [if_pos hpos]
          rw [hop, hal, e1] at hchk
          omega
        · rw [if_neg hpos]
          omega
      obtain ⟨r3, hp, ha3, hf3, hs3, hob3, hib3, hfl3, hfd3, hop3, hu3, -, hout3⟩ :=
        parse_some_fields reg ks r2 hh
          (if 0 < hh.InputSize then
            computeInSz ks (readU32 input.bytes 4) hh 0 input.bytes.length
            else sizeOfInHeader)
          (by rw [hop]; exact hreg) hne hchk
          (by rw [hop, hal, e1])
          (by rw [e1]; omega)
          names mismatch
          (by rw [hop, e1]; exact hq)
          (by omega)
      have hdl : dataLengthOf reg r3 ≤ hh.OutputSize :=
        dataLengthOf_le reg r3 hh (by rw [hop3, hop]; exact hreg)
      refine pipeline_valid_of_parse reg ks r0 input r3
        (hh.OutputSize + sizeOfOutHeader) h40 hp
        (by rw [hib3]; exact hne) hob3 (by omega) (by omega) ?_ ?_ ?_
      · rw [hs3]
        cases mismatch with
        | true => show EIO < 2^31; norm_num [ EIO]
        | false =>
          show r2.status < 2^31
          rw [e4]
          norm_num [OK]
      · unfold request.flatDataSize
        rw [show r3.fdData = none from by rw [hfd3]; exact e6]
        rw [show r3.flatData = [] from by rw [hfl3]; exact e5]
        rfl
      · rw [hout3]
        rw [List.length_append, List.length_replicate, List.length_drop, e7, hob0]
        omega

/-- Every sample registry entry's output record fits the inline output
array. -/
theorem sampleHandlers_wf : ∀ op hh, sampleHandlers op = some hh →
    hh.OutputSize + sizeOfOutHeader ≤ outputHeaderSize := by
  intro op hh hreg
  unfold sampleHandlers at hreg
  split_ifs at hreg
  all_goals rw [← Option.some.inj hreg]
  all_goals decide

set_option maxRecDepth 20000 in
/-- Counterexample to claim C4 as stated: a 40-byte LOOKUP frame — a
recognized one-filename opcode with an empty filename argument region —
makes `parse` panic (`arg[:len(arg)-1]` on empty `arg`), so the pipeline
produces no reply at all. -/
theorem pipeline_no_panic_cx :
    sampleHandlers (readU32 lookupFrame40 4) = some ⟨0, 128, 1, false⟩ ∧
    sizeOfInHeader ≤ lookupFrame40.length ∧
    handleFrame sampleHandlers ks0 freshRequest ⟨lookupFrame40, []⟩ = none := by
  decide

set_option maxRecDepth 20000 in
/-- Witness for C4 on a well-formed LOOKUP frame. -/
theorem pipeline_no_panic_witness :
    ∃ r', handleFrame sampleHandlers ks0 freshRequest ⟨lookupFrameAB, []⟩ =
      some r' ∧ validReply r' :=
  pipeline_no_panic sampleHandlers ks0 freshRequest ⟨lookupFrameAB, []⟩
    (by decide) sampleHandlers_wf (by decide)
    (by
      intro hh hreg h1 hns
      have heq : hh = ⟨0, 128, 1, false⟩ := by
        have h2 : sampleHandlers (readU32 lookupFrameAB 4) =
            some ⟨0, 128, 1, false⟩ := by decide
        rw [h2] at hreg
        exact (Option.some.inj hreg).symm
      subst heq
      decide)

end GoFuse
